import Mathlib

/-!
Verification of the world-builder authorization and input-safety layer.

The permission engine is embedded from `src/services/PermissionService.ts`,
the validation/sanitization pipeline from `src/services/ValidationService.ts`
(concatenated into `block-editor.js`), and the authorization gate from the
`SecureComponent` / `useSecureData` logic. Machine strings are Lean `String`;
HTML documents are represented by their parse trees (the sanitizer engine,
DOMPurify, operates on parsed DOM nodes; parsing itself is external).
-/

namespace WorldBuilder

/-! ## Permission engine data model (src/types/security.ts) -/

inductive PermissionAction where
  | create
  | read
  | update
  | delete
  | execute
  | configure
deriving DecidableEq, Repr

inductive PermissionScope where
  | own
  | project
  | global
deriving DecidableEq, Repr

/-- `Permission` from src/types/security.ts: `scope` is optional (`scope?`),
modelled as `Option PermissionScope`; an absent scope is `none`. -/
structure Permission where
  resource : String
  action : PermissionAction
  scope : Option PermissionScope
deriving DecidableEq, Repr

/-- `User` from src/types/security.ts (`lastLogin` is never read by the
authorization layer and is omitted). -/
structure User where
  id : String
  email : String
  permissions : List Permission
  isActive : Bool
deriving DecidableEq, Repr

inductive SecurityErrorCode where
  | PERMISSION_DENIED
  | INVALID_INPUT
  | SANDBOX_VIOLATION
  | AUTHENTICATION_REQUIRED
  | RATE_LIMIT_EXCEEDED
deriving DecidableEq, Repr

/-! ## Permission engine (src/services/PermissionService.ts) -/

/-- `PermissionService.scopeMatches`. The guard `!userScope && !requiredScope`
fires exactly when both optional scopes are absent, since a present scope is
one of the non-empty strings own/project/global (always truthy). The final
line `return userScope === requiredScope` is the strict-equality fallthrough. -/
def scopeMatches (userScope requiredScope : Option PermissionScope) : Bool :=
  if userScope = none && requiredScope = none then
    true
  else if userScope = some PermissionScope.global then
    true
  else if userScope = some PermissionScope.project &&
      (requiredScope = some PermissionScope.project ||
       requiredScope = some PermissionScope.own) then
    true
  else if userScope = some PermissionScope.own &&
      requiredScope = some PermissionScope.own then
    true
  else
    userScope = requiredScope

/-- `PermissionService.permissionsMatch`: exact resource, exact action,
then the scope compatibility check. -/
def permissionsMatch (userPermission requiredPermission : Permission) : Bool :=
  if userPermission.resource ≠ requiredPermission.resource then
    false
  else if userPermission.action ≠ requiredPermission.action then
    false
  else
    scopeMatches userPermission.scope requiredPermission.scope

/-- `PermissionService.hasPermission`: inactive users have no permissions;
otherwise some granted permission must match. -/
def hasPermission (user : User) (permission : Permission) : Bool :=
  if !user.isActive then
    false
  else
    user.permissions.any (fun userPermission =>
      permissionsMatch userPermission permission)

/-- `PermissionService.hasAnyPermission`. -/
def hasAnyPermission (user : User) (permissions : List Permission) : Bool :=
  permissions.any (fun permission => hasPermission user permission)

/-- `Omit<Permission, 'scope'>`: a required permission without a scope field. -/
structure ScopelessPermission where
  resource : String
  action : PermissionAction
deriving DecidableEq, Repr

/-- `PermissionService.filterByPermissions`. The TS signature constrains items
to `T extends { id: string }` but the filter callback takes no parameters, so
the element type is irrelevant; the if/return chain is the boolean disjunction
global, then project, then own. -/
def filterByPermissions {α : Type} (user : User) (items : List α)
    (requiredPermission : ScopelessPermission) : List α :=
  items.filter (fun _ =>
    hasPermission user
      ⟨requiredPermission.resource, requiredPermission.action,
        some PermissionScope.global⟩ ||
    hasPermission user
      ⟨requiredPermission.resource, requiredPermission.action,
        some PermissionScope.project⟩ ||
    hasPermission user
      ⟨requiredPermission.resource, requiredPermission.action,
        some PermissionScope.own⟩)

/-- `PermissionService.getPermissionsForResource`. -/
def getPermissionsForResource (user : User) (resource : String) :
    List Permission :=
  user.permissions.filter (fun permission => permission.resource == resource)

/-- `PermissionService.isGlobalAdmin`. -/
def isGlobalAdmin (user : User) : Bool :=
  hasPermission user ⟨"*", PermissionAction.configure,
    some PermissionScope.global⟩

/-! ## HTML model and sanitizer (src ValidationService.sanitizeHtml)

HTML strings are represented by their parse trees: an `HtmlStr` is a forest of
text and element nodes. The DOMPurify configuration (allowed tags, allowed
attributes, forbidden tags, forbidden attributes, URI scheme allow-list) is
taken verbatim from the `sanitizeHtml` config object in the source; the
DOMPurify engine itself is an external dependency, so its filtering pass over
parsed nodes is modelled from the spec. -/

mutual
inductive Html where
  | text : String → Html
  | elem : String → List (String × String) → HtmlStr → Html
inductive HtmlStr where
  | nil : HtmlStr
  | cons : Html → HtmlStr → HtmlStr
end

/-- `ALLOWED_TAGS` from the sanitizeHtml config. -/
def allowedTags : List String :=
  ["p", "br", "strong", "em", "u", "h1", "h2", "h3", "h4", "h5", "h6",
   "ul", "ol", "li", "blockquote", "code", "pre", "a", "img", "table",
   "thead", "tbody", "tr", "th", "td", "div", "span", "hr"]

/-- `FORBID_TAGS` from the sanitizeHtml config. -/
def forbidTags : List String :=
  ["script", "object", "embed", "form", "input", "button"]

/-- `ALLOWED_ATTR` from the sanitizeHtml config (`ADD_ATTR: ['target']` adds
nothing new, `target` is already allowed). -/
def allowedAttrs : List String :=
  ["href", "src", "alt", "title", "class", "id", "style",
   "target", "rel", "width", "height"]

/-- `FORBID_ATTR` from the sanitizeHtml config. -/
def forbidAttrs : List String :=
  ["onclick", "onerror", "onload", "onmouseover"]

/-- Modelled from the spec: the URI scheme allow-list restricting href/src
"to known-safe schemes (http(s), mailto, tel, callto, cid, xmpp, or
relative/same-document references)", matching `ALLOWED_URI_REGEXP` in the
source config (which also admits ftp(s) and the placeholder scheme xxx).
A value with no scheme separator is a relative reference and is allowed. -/
def isAllowedUri (value : String) : Bool :=
  if value.contains ':' then
    (value.toLower.takeWhile (fun c => c ≠ ':')) ∈
      ["http", "https", "ftp", "ftps", "mailto", "tel", "callto",
       "cid", "xmpp", "xxx"]
  else
    true

/-- A tag survives sanitization iff it is allow-listed and not forbidden. -/
def keepTag (tag : String) : Bool :=
  allowedTags.contains tag && !(forbidTags.contains tag)

/-- An attribute survives iff its name is allow-listed, not forbidden, and a
URI-bearing attribute (href/src) carries an allow-listed scheme. -/
def keepAttr (attr : String × String) : Bool :=
  allowedAttrs.contains attr.1 && !(forbidAttrs.contains attr.1) &&
    (if attr.1 == "href" || attr.1 == "src" then isAllowedUri attr.2 else true)

/-- Modelled from the spec: `ValidationService.sanitizeHtml`. DOMPurify (the
external engine) walks the parsed forest; a disallowed or forbidden element is
dropped together with its content (the spec example removes `script` and its
body), an allowed element keeps only surviving attributes and its sanitized
children, and text nodes pass through. -/
def sanitizeHtml : HtmlStr → HtmlStr
  | HtmlStr.nil => HtmlStr.nil
  | HtmlStr.cons (Html.text s) t => HtmlStr.cons (Html.text s) (sanitizeHtml t)
  | HtmlStr.cons (Html.elem tag attrs children) t =>
    if keepTag tag then
      HtmlStr.cons (Html.elem tag (attrs.filter keepAttr)
        (sanitizeHtml children)) (sanitizeHtml t)
    else
      sanitizeHtml t

/-! ## Value model and validation pipeline (src ValidationService)

`Value` models the untrusted JS values flowing through the pipeline. String
values carry their HTML parse forest (see above); the empty JS string is the
empty forest. -/

inductive Value where
  | vStr : HtmlStr → Value
  | vNum : Int → Value
  | vBool : Bool → Value
  | vNull : Value
  | vObj : List (String × Value) → Value

/-- JS truthiness of a `Value`, as tested by `if (data && validationSchema)`:
`null`, `false`, `0` and the empty string are falsy; objects are truthy. -/
def truthy : Value → Bool
  | Value.vStr HtmlStr.nil => false
  | Value.vStr _ => true
  | Value.vNum n => n ≠ 0
  | Value.vBool b => b
  | Value.vNull => false
  | Value.vObj _ => true

/-- One entry of a zod issue list: a path and a message per offending field. -/
structure ZodIssue where
  path : List String
  message : String
deriving DecidableEq, Repr

/-- A zod validation error carries its structured issue list. -/
structure ZodError where
  issues : List ZodIssue
deriving DecidableEq, Repr

/-- Structured `details` payloads attached to a `SecurityError`. -/
inductive ErrorDetails where
  | validationDetails : List ZodIssue → Value → ErrorDetails
  | permissionDetails : List Permission → String → ErrorDetails

/-- `SecurityError` from src/types/security.ts. -/
structure SecurityError where
  message : String
  code : SecurityErrorCode
  details : Option ErrorDetails

/-- A caller-supplied zod schema, abstracted by its `parse` function: it
either returns the typed value or throws a `ZodError`. -/
structure Schema where
  parse : Value → Except ZodError Value

/-- `ValidationService.validate`: `schema.parse` succeeds, or its `ZodError`
is wrapped into a `SecurityError` with code `INVALID_INPUT` and details
`{issues, received: data}`. -/
def validate (data : Value) (schema : Schema) : Except SecurityError Value :=
  match schema.parse data with
  | Except.ok v => Except.ok v
  | Except.error e =>
    Except.error ⟨"Input validation failed", SecurityErrorCode.INVALID_INPUT,
      some (ErrorDetails.validationDetails e.issues data)⟩

/-- The fixed HTML-bearing field names of `containsHtmlContent` and
`sanitizeHtmlInObject`. -/
def htmlFields : List String := ["content", "description", "notes", "html"]

/-- Whether a `Value` is a JS string (`typeof v === 'string'`). -/
def isStrField : Value → Bool
  | Value.vStr _ => true
  | _ => false

/-- Sanitize a string value; leave any other value unchanged (the guard
`typeof result[field] === 'string'` precedes every call). -/
def sanitizeStrValue : Value → Value
  | Value.vStr s => Value.vStr (sanitizeHtml s)
  | v => v

/-- `ValidationService.containsHtmlContent`: a non-null object with a
top-level string field named in `htmlFields`. -/
def containsHtmlContent : Value → Bool
  | Value.vObj fields =>
    htmlFields.any (fun field =>
      fields.any (fun kv => kv.1 == field && isStrField kv.2))
  | _ => false

/-- `ValidationService.sanitizeHtmlInObject`: copy the object, replacing each
top-level string field named in `htmlFields` with its sanitized form. -/
def sanitizeHtmlInObject : Value → Value
  | Value.vObj fields =>
    Value.vObj (fields.map (fun kv =>
      if htmlFields.contains kv.1 && isStrField kv.2 then
        (kv.1, sanitizeStrValue kv.2)
      else
        kv))
  | v => v

/-- `ValidationService.validateAndSanitize`: validate first; on success,
sanitize the validated result when it contains HTML content fields. -/
def validateAndSanitize (data : Value) (schema : Schema) :
    Except SecurityError Value :=
  match validate data schema with
  | Except.error e => Except.error e
  | Except.ok validatedData =>
    if containsHtmlContent validatedData then
      Except.ok (sanitizeHtmlInObject validatedData)
    else
      Except.ok validatedData

/-! ## Authorization gate (SecureComponent / useSecureData) -/

/-- Outcome of one authorization attempt: the terminal states of the gate's
`Idle -> Checking -> {Authorized, Denied}` machine, with the state fields the
code stores (`validatedData` on success, the caught `SecurityError` on
denial). -/
inductive GateResult where
  | Authorized : Option Value → GateResult
  | Denied : SecurityError → GateResult

/-- The `validateAndAuthorize` body shared by `SecureComponent` and
`useSecureData`: the permission step passes when `requiredPermissions.length
=== 0` or `hasAnyPermission` holds, otherwise a PERMISSION_DENIED error is
thrown and caught; then `if (data && validationSchema)` runs
`validateAndSanitize`, whose failure is the caught error; otherwise the gate
authorizes with the (possibly absent) validated data. -/
def authorizeGate (user : User) (requiredPermissions : List Permission)
    (data : Option Value) (validationSchema : Option Schema) : GateResult :=
  if !(requiredPermissions.length == 0 ||
      hasAnyPermission user requiredPermissions) then
    GateResult.Denied ⟨"Insufficient permissions",
      SecurityErrorCode.PERMISSION_DENIED,
      some (ErrorDetails.permissionDetails requiredPermissions user.id)⟩
  else
    match data, validationSchema with
    | some d, some schema =>
      if truthy d then
        match validateAndSanitize d schema with
        | Except.ok v => GateResult.Authorized (some v)
        | Except.error e => GateResult.Denied e
      else
        GateResult.Authorized none
    | _, _ => GateResult.Authorized none

/-! ## Concrete instances used in the theorems -/

/-- An element type for `filterByPermissions` (`T extends { id: string }`). -/
structure Item where
  id : String
deriving DecidableEq, Repr

def docsProjectUser : User :=
  ⟨"alice", "alice@example.com",
   [⟨"docs", PermissionAction.update, some PermissionScope.project⟩], true⟩

def docsOwnUser : User :=
  ⟨"bob", "bob@example.com",
   [⟨"docs", PermissionAction.update, some PermissionScope.own⟩], true⟩

def inactiveAdminUser : User :=
  ⟨"carol", "carol@example.com",
   [⟨"*", PermissionAction.configure, some PermissionScope.global⟩], false⟩

def activeAdminUser : User :=
  ⟨"dave", "dave@example.com",
   [⟨"*", PermissionAction.configure, some PermissionScope.global⟩], true⟩

def docsConfigureUser : User :=
  ⟨"erin", "erin@example.com",
   [⟨"docs", PermissionAction.configure, some PermissionScope.global⟩], true⟩

def ownOnlyReader : User :=
  ⟨"frank", "frank@example.com",
   [⟨"docs", PermissionAction.read, some PermissionScope.own⟩], true⟩

def threeItems : List Item := [⟨"i1"⟩, ⟨"i2"⟩, ⟨"i3"⟩]

/-- A schema that accepts every value unchanged. -/
def idSchema : Schema := ⟨fun v => Except.ok v⟩

/-- A schema that rejects every value. -/
def rejectAllSchema : Schema :=
  ⟨fun _ => Except.error ⟨[⟨[], "rejected"⟩]⟩⟩

/-- Modelled from the spec: a zod object schema (the schema objects are built
with the external zod library) that requires the named top-level fields;
a missing required field contributes an issue with that field's path and the
message `Required`, one issue per offending field. -/
def requiredFieldsSchema (required : List String) : Schema :=
  ⟨fun data =>
    match data with
    | Value.vObj fields =>
      match required.filter (fun f => !(fields.any (fun kv => kv.1 == f))) with
      | [] => Except.ok data
      | missing => Except.error ⟨missing.map (fun f => ⟨[f], "Required"⟩)⟩
    | _ => Except.error ⟨[⟨[], "Expected object"⟩]⟩⟩

/-- An object carrying `id` but missing a required `title` field. -/
def missingFieldData : Value := Value.vObj [("id", Value.vNum 1)]

/-- A paragraph carrying an inline `onclick` event-handler attribute. -/
def taintedParagraph : HtmlStr :=
  HtmlStr.cons
    (Html.elem "p" [("onclick", "alert(1)"), ("class", "note")]
      (HtmlStr.cons (Html.text "hi") HtmlStr.nil))
    HtmlStr.nil

/-- `taintedParagraph` with the `onclick` attribute stripped. -/
def cleanParagraph : HtmlStr :=
  HtmlStr.cons
    (Html.elem "p" [("class", "note")]
      (HtmlStr.cons (Html.text "hi") HtmlStr.nil))
    HtmlStr.nil

/-- A title that would change if it were sanitized (it holds a `script`
element), demonstrating that non-designated fields are left alone. -/
def scriptTitle : HtmlStr :=
  HtmlStr.cons
    (Html.elem "script" [] (HtmlStr.cons (Html.text "x") HtmlStr.nil))
    HtmlStr.nil

/-- A nested sub-object whose own `content` field carries the tainted
markup; shallow detection must leave it untouched. -/
def nestedMeta : Value := Value.vObj [("content", Value.vStr taintedParagraph)]

/-- A document-content object whose `content` field carries an `onclick`
attribute. -/
def docExample : Value :=
  Value.vObj
    [("id", Value.vNum 7),
     ("title", Value.vStr scriptTitle),
     ("content", Value.vStr taintedParagraph),
     ("meta", nestedMeta),
     ("count", Value.vNum 3)]

/-- `docExample` after the pipeline: only `content` changed. -/
def docExampleSanitized : Value :=
  Value.vObj
    [("id", Value.vNum 7),
     ("title", Value.vStr scriptTitle),
     ("content", Value.vStr cleanParagraph),
     ("meta", nestedMeta),
     ("count", Value.vNum 3)]

/-! ## Helper lemmas -/

lemma scopeMatches_global_left (r : Option PermissionScope) :
    scopeMatches (some PermissionScope.global) r = true := by
  simp [scopeMatches]

lemma scopeMatches_project_left_iff (r : Option PermissionScope) :
    scopeMatches (some PermissionScope.project) r = true ↔
      (r = some PermissionScope.project ∨ r = some PermissionScope.own) := by
  rcases r with _ | s
  · simp [scopeMatches]
  · cases s <;> simp [scopeMatches]

lemma scopeMatches_own_left_iff (r : Option PermissionScope) :
    scopeMatches (some PermissionScope.own) r = true ↔
      r = some PermissionScope.own := by
  rcases r with _ | s
  · simp [scopeMatches]
  · cases s <;> simp [scopeMatches]

lemma scopeMatches_global_right_iff (us : Option PermissionScope) :
    scopeMatches us (some PermissionScope.global) = true ↔
      us = some PermissionScope.global := by
  rcases us with _ | s
  · simp [scopeMatches]
  · cases s <;> simp [scopeMatches]

lemma permissionsMatch_of_eq (p q : Permission)
    (hr : p.resource = q.resource) (ha : p.action = q.action) :
    permissionsMatch p q = scopeMatches p.scope q.scope := by
  simp [permissionsMatch, hr, ha]

/-! ## Claim theorems -/

/-- C1: scope matching is hierarchical and directional. For permissions whose
resource and action match exactly: a granted `global` scope satisfies any
required scope; a granted `project` scope satisfies exactly required `project`
or `own` (hence not `global`); a granted `own` scope satisfies exactly required
`own`. In particular, an active user holding only docs/update/project passes
the docs/update/own requirement, and an active user holding only
docs/update/own fails the docs/update/project requirement. -/
theorem C1_scope_matching_hierarchical :
    (∀ p q : Permission, p.resource = q.resource → p.action = q.action →
      p.scope = some PermissionScope.global → permissionsMatch p q = true)
    ∧ (∀ p q : Permission, p.resource = q.resource → p.action = q.action →
      p.scope = some PermissionScope.project →
      (permissionsMatch p q = true ↔
        (q.scope = some PermissionScope.project ∨
         q.scope = some PermissionScope.own)))
    ∧ (∀ p q : Permission, p.resource = q.resource → p.action = q.action →
      p.scope = some PermissionScope.own →
      (permissionsMatch p q = true ↔ q.scope = some PermissionScope.own))
    ∧ hasPermission docsProjectUser
        ⟨"docs", PermissionAction.update, some PermissionScope.own⟩ = true
    ∧ hasPermission docsOwnUser
        ⟨"docs", PermissionAction.update, some PermissionScope.project⟩
        = false := by
  refine ⟨?_, ?_, ?_, by decide, by decide⟩
  · intro p q hr ha hs
    rw [permissionsMatch_of_eq p q hr ha, hs]
    exact scopeMatches_global_left q.scope
  · intro p q hr ha hs
    rw [permissionsMatch_of_eq p q hr ha, hs]
    exact scopeMatches_project_left_iff q.scope
  · intro p q hr ha hs
    rw [permissionsMatch_of_eq p q hr ha, hs]
    exact scopeMatches_own_left_iff q.scope

/-- Witness for C1: the global clause instantiated at concrete permissions. -/
theorem C1_scope_matching_hierarchical_witness :
    permissionsMatch
      ⟨"docs", PermissionAction.read, some PermissionScope.global⟩
      ⟨"docs", PermissionAction.read, some PermissionScope.own⟩ = true :=
  C1_scope_matching_hierarchical.1
    ⟨"docs", PermissionAction.read, some PermissionScope.global⟩
    ⟨"docs", PermissionAction.read, some PermissionScope.own⟩ rfl rfl rfl

/-- C2 counterexample: the claim says a granted permission with any present
scope, including `global`, does not satisfy a required permission that omits
scope; but `scopeMatches` tests the `global` short-circuit before the
fall-through, so a global grant does satisfy an omitted required scope. -/
theorem C2_counterexample :
    permissionsMatch
      ⟨"docs", PermissionAction.read, some PermissionScope.global⟩
      ⟨"docs", PermissionAction.read, none⟩ = true
    ∧ scopeMatches (some PermissionScope.global) none = true := by
  exact ⟨rfl, rfl⟩

/-- C2 (amended): when exactly one side omits its scope, the result is true
when the granted side is `global` (the global short-circuit precedes the
fall-through) and false in every other case: a granted `project` or `own`
scope does not satisfy an omitted required scope, and an omitted granted
scope never satisfies a present required scope. Omission is an automatic
match when both sides omit scope. -/
theorem C2_scope_omission_amended :
    scopeMatches none none = true
    ∧ (∀ r : Option PermissionScope, r ≠ none →
        scopeMatches none r = false)
    ∧ scopeMatches (some PermissionScope.global) none = true
    ∧ scopeMatches (some PermissionScope.project) none = false
    ∧ scopeMatches (some PermissionScope.own) none = false := by
  refine ⟨rfl, ?_, rfl, rfl, rfl⟩
  intro r h
  rcases r with _ | s
  · exact absurd rfl h
  · cases s <;> rfl

/-- Witness for C2 (amended): an omitted grant fails a scoped requirement. -/
theorem C2_scope_omission_amended_witness :
    (some PermissionScope.own ≠ (none : Option PermissionScope))
    ∧ scopeMatches none (some PermissionScope.own) = false :=
  ⟨by decide, C2_scope_omission_amended.2.1 (some PermissionScope.own)
    (by decide)⟩

/-- C3: an inactive user has no effective permissions: `hasPermission` is
false for every required permission, whatever the permission list holds. -/
theorem C3_inactive_user_has_no_permissions :
    ∀ (user : User) (required : Permission), user.isActive = false →
      hasPermission user required = false := by
  intro user required h
  simp [hasPermission, h]

/-- Witness for C3: an inactive user holding the global-admin grant still
fails a docs/read requirement. -/
theorem C3_inactive_user_has_no_permissions_witness :
    inactiveAdminUser.isActive = false
    ∧ hasPermission inactiveAdminUser
        ⟨"docs", PermissionAction.read, some PermissionScope.own⟩ = false :=
  ⟨rfl, C3_inactive_user_has_no_permissions inactiveAdminUser
    ⟨"docs", PermissionAction.read, some PermissionScope.own⟩ rfl⟩

/-- A granted permission matches the global-admin requirement exactly when it
is the permission `{resource: "*", action: configure, scope: global}`. -/
lemma permissionsMatch_admin_iff (p : Permission) :
    permissionsMatch p
      ⟨"*", PermissionAction.configure, some PermissionScope.global⟩ = true ↔
    p = ⟨"*", PermissionAction.configure, some PermissionScope.global⟩ := by
  rcases p with ⟨r, a, s⟩
  by_cases hr : r = "*"
  · by_cases ha : a = PermissionAction.configure
    · subst hr; subst ha
      simp [permissionsMatch, scopeMatches_global_right_iff s,
        Permission.mk.injEq]
    · simp [permissionsMatch, hr, ha, Permission.mk.injEq]
  · simp [permissionsMatch, hr, Permission.mk.injEq]

/-- C6 counterexample: the claim's biconditional is unconditional in the
user, but an inactive user holding exactly `{*, configure, global}` is not a
global admin (`hasPermission` refuses inactive users first). -/
theorem C6_counterexample :
    (⟨"*", PermissionAction.configure, some PermissionScope.global⟩
        : Permission) ∈ inactiveAdminUser.permissions
    ∧ isGlobalAdmin inactiveAdminUser = false := by
  constructor
  · simp [inactiveAdminUser]
  · rfl

/-- C6 (amended): for every active user, `isGlobalAdmin` is true iff the user
holds a permission equal to `{resource: "*", action: configure, scope:
global}`; an inactive user is never a global admin; and holding
`{docs, configure, global}` (a different resource) does not satisfy it. -/
theorem C6_isGlobalAdmin_amended :
    (∀ user : User, user.isActive = true →
      (isGlobalAdmin user = true ↔
        (⟨"*", PermissionAction.configure, some PermissionScope.global⟩
          : Permission) ∈ user.permissions))
    ∧ (∀ user : User, user.isActive = false → isGlobalAdmin user = false)
    ∧ isGlobalAdmin docsConfigureUser = false := by
  refine ⟨?_, ?_, rfl⟩
  · intro user hu
    simp [isGlobalAdmin, hasPermission, hu, List.any_eq_true,
      permissionsMatch_admin_iff]
  · intro user hu
    simp [isGlobalAdmin, hasPermission, hu]

/-- Witness for C6 (amended): an active user holding the exact grant is a
global admin. -/
theorem C6_isGlobalAdmin_amended_witness :
    activeAdminUser.isActive = true ∧ isGlobalAdmin activeAdminUser = true :=
  ⟨rfl, (C6_isGlobalAdmin_amended.1 activeAdminUser rfl).mpr
    (by simp [activeAdminUser])⟩

/-- C9: `filterByPermissions` is all-or-nothing. The filter predicate ignores
the item, so the result is the whole input list when the user holds the
requirement at global, project or own scope, and the empty list otherwise;
in particular an active user holding only an own-scope grant receives every
item. -/
theorem C9_filterByPermissions_all_or_nothing :
    (∀ (α : Type) (user : User) (items : List α)
        (req : ScopelessPermission),
      filterByPermissions user items req =
        if hasPermission user
            ⟨req.resource, req.action, some PermissionScope.global⟩ ||
           hasPermission user
            ⟨req.resource, req.action, some PermissionScope.project⟩ ||
           hasPermission user
            ⟨req.resource, req.action, some PermissionScope.own⟩
        then items else [])
    ∧ (∀ (α : Type) (user : User) (items : List α)
        (req : ScopelessPermission),
      filterByPermissions user items req = items ∨
        filterByPermissions user items req = [])
    ∧ filterByPermissions ownOnlyReader threeItems
        ⟨"docs", PermissionAction.read⟩ = threeItems := by
  have key : ∀ (α : Type) (user : User) (items : List α)
      (req : ScopelessPermission),
      filterByPermissions user items req =
        if hasPermission user
            ⟨req.resource, req.action, some PermissionScope.global⟩ ||
           hasPermission user
            ⟨req.resource, req.action, some PermissionScope.project⟩ ||
           hasPermission user
            ⟨req.resource, req.action, some PermissionScope.own⟩
        then items else [] := by
    intro α user items req
    unfold filterByPermissions
    cases h : (hasPermission user
        ⟨req.resource, req.action, some PermissionScope.global⟩ ||
      hasPermission user
        ⟨req.resource, req.action, some PermissionScope.project⟩ ||
      hasPermission user
        ⟨req.resource, req.action, some PermissionScope.own⟩) <;>
      simp [h]
  refine ⟨key, ?_, by decide⟩
  intro α user items req
  rw [key α user items req]
  by_cases h : (hasPermission user
      ⟨req.resource, req.action, some PermissionScope.global⟩ ||
    hasPermission user
      ⟨req.resource, req.action, some PermissionScope.project⟩ ||
    hasPermission user
      ⟨req.resource, req.action, some PermissionScope.own⟩) = true
  · left; simp [h]
  · right; simp [h]

/-- Filtering attributes twice is the same as filtering once. -/
lemma filter_keepAttr_idem (attrs : List (String × String)) :
    (attrs.filter keepAttr).filter keepAttr = attrs.filter keepAttr := by
  rw [List.filter_filter]
  have h : (fun a => keepAttr a && keepAttr a) = keepAttr :=
    funext fun a => Bool.and_self (keepAttr a)
  rw [h]

/-- C7: sanitization is idempotent: sanitizing an already-sanitized forest
returns it unchanged, so sanitizing content free of disallowed tags and
attributes is the identity. -/
theorem C7_sanitizeHtml_idempotent :
    ∀ s : HtmlStr, sanitizeHtml (sanitizeHtml s) = sanitizeHtml s := by
  intro s
  induction s using sanitizeHtml.induct with
  | case1 => rfl
  | case2 str t ih => simp [sanitizeHtml, ih]
  | case3 tag attrs children t hkeep ihc iht =>
    simp [sanitizeHtml, hkeep, ihc, iht, filter_keepAttr_idem]
  | case4 tag attrs children t hkeep iht =>
    simp [sanitizeHtml, hkeep, iht]

/-- If an object has no top-level HTML-named string field, the sanitizing
map leaves every field unchanged. -/
lemma map_sanitize_eq_of_not_contains (fields : List (String × Value))
    (h : containsHtmlContent (Value.vObj fields) = false) :
    fields.map (fun kv =>
      if htmlFields.contains kv.1 && isStrField kv.2 then
        (kv.1, sanitizeStrValue kv.2)
      else
        kv) = fields := by
  have hall : ∀ kv ∈ fields,
      (htmlFields.contains kv.1 && isStrField kv.2) = false := by
    intro kv hkv
    by_contra hc
    rw [Bool.not_eq_false, Bool.and_eq_true] at hc
    obtain ⟨hmem, hstr⟩ := hc
    rw [List.contains_iff_exists_mem_beq] at hmem
    obtain ⟨field, hfield, heq⟩ := hmem
    have hbeq : kv.1 = field := by simpa using heq
    have hcontains : containsHtmlContent (Value.vObj fields) = true := by
      simp only [containsHtmlContent, List.any_eq_true]
      exact ⟨field, hfield, kv, hkv, by simp [hbeq, hstr]⟩
    rw [hcontains] at h
    cases h
  calc fields.map (fun kv =>
        if htmlFields.contains kv.1 && isStrField kv.2 then
          (kv.1, sanitizeStrValue kv.2)
        else kv)
      = fields.map id := by
        apply List.map_congr_left
        intro kv hkv
        rw [hall kv hkv]
        simp
    _ = fields := List.map_id fields

/-- C5: on every input that passes validation, `validateAndSanitize` replaces
exactly the top-level string fields named content/description/notes/html of
the validated result by their `sanitizeHtml` image and leaves every other
field unchanged; detection is shallow, so nested objects are untouched; and
for the concrete document whose `content` carries an `onclick` attribute,
only `content` changes. -/
theorem C5_validateAndSanitize_frame :
    (∀ (data : Value) (schema : Schema) (fields : List (String × Value)),
      validate data schema = Except.ok (Value.vObj fields) →
      validateAndSanitize data schema =
        Except.ok (Value.vObj (fields.map (fun kv =>
          if htmlFields.contains kv.1 && isStrField kv.2 then
            (kv.1, sanitizeStrValue kv.2)
          else
            kv))))
    ∧ (∀ (data : Value) (schema : Schema) (v : Value),
      validate data schema = Except.ok v → containsHtmlContent v = false →
      validateAndSanitize data schema = Except.ok v)
    ∧ validateAndSanitize docExample idSchema =
        Except.ok docExampleSanitized := by
  refine ⟨?_, ?_, rfl⟩
  · intro data schema fields h
    unfold validateAndSanitize
    rw [h]
    cases hc : containsHtmlContent (Value.vObj fields) with
    | false =>
      simp only [hc, Bool.false_eq_true, reduceIte]
      rw [map_sanitize_eq_of_not_contains fields hc]
    | true =>
      simp only [hc, reduceIte]
      rfl
  · intro data schema v h hc
    unfold validateAndSanitize
    rw [h]
    simp [hc]

/-- Witness for C5: the general clause instantiated at the concrete document
(the validation hypothesis discharged by evaluation). -/
theorem C5_validateAndSanitize_frame_witness :
    validate docExample idSchema = Except.ok docExample
    ∧ validateAndSanitize docExample idSchema =
        Except.ok docExampleSanitized :=
  ⟨rfl, C5_validateAndSanitize_frame.2.2⟩

/-- C8: `validate` either returns the schema's typed value or fails with a
SecurityError coded INVALID_INPUT whose details carry the structured issue
list and the received data; in particular, data missing a required field
fails with an issue whose path names the missing field. -/
theorem C8_validate_error_shape :
    (∀ (data : Value) (schema : Schema),
      (∃ v, schema.parse data = Except.ok v ∧
        validate data schema = Except.ok v) ∨
      (∃ issues, schema.parse data = Except.error ⟨issues⟩ ∧
        validate data schema = Except.error ⟨"Input validation failed",
          SecurityErrorCode.INVALID_INPUT,
          some (ErrorDetails.validationDetails issues data)⟩))
    ∧ validate missingFieldData (requiredFieldsSchema ["id", "title"]) =
        Except.error ⟨"Input validation failed",
          SecurityErrorCode.INVALID_INPUT,
          some (ErrorDetails.validationDetails [⟨["title"], "Required"⟩]
            missingFieldData)⟩ := by
  constructor
  · intro data schema
    cases h : schema.parse data with
    | ok v =>
      left
      exact ⟨v, rfl, by simp [validate, h]⟩
    | error e =>
      right
      exact ⟨e.issues, rfl, by simp [validate, h]⟩
  · rfl

/-- Any error produced by the pipeline carries the INVALID_INPUT code. -/
lemma validateAndSanitize_error_code (d : Value) (s : Schema)
    (e : SecurityError) (h : validateAndSanitize d s = Except.error e) :
    e.code = SecurityErrorCode.INVALID_INPUT := by
  unfold validateAndSanitize validate at h
  cases hp : s.parse d with
  | ok v =>
    rw [hp] at h
    cases hc : containsHtmlContent v <;> simp [hc] at h
  | error e2 =>
    rw [hp] at h
    simp at h
    rw [← h]

/-- The permission step of the gate passes exactly when the required list is
empty or `hasAnyPermission` holds. -/
lemma gate_permission_pass (user : User) (reqs : List Permission)
    (h : reqs = [] ∨ hasAnyPermission user reqs = true) :
    (reqs.length == 0 || hasAnyPermission user reqs) = true := by
  rcases h with h | h
  · subst h; rfl
  · simp [h]

/-- C4 (amended): the authorization gate sequences the permission check
before the pipeline. An empty required-permission list can never produce a
PERMISSION_DENIED denial; a failed `hasAnyPermission` check on a non-empty
list denies with the PERMISSION_DENIED SecurityError whatever data or schema
were supplied (the pipeline is never consulted); when the permission step
passes and truthy data plus a schema were supplied, a pipeline failure denies
with exactly the pipeline's error and a pipeline success authorizes with the
sanitized data; and with data absent, data falsy, or schema absent the gate
authorizes with no validated data. -/
theorem C4_authorization_gate :
    (∀ (user : User) (data : Option Value) (schema : Option Schema)
        (e : SecurityError),
      authorizeGate user [] data schema = GateResult.Denied e →
      e.code ≠ SecurityErrorCode.PERMISSION_DENIED)
    ∧ (∀ (user : User) (reqs : List Permission) (data : Option Value)
        (schema : Option Schema),
      reqs ≠ [] → hasAnyPermission user reqs = false →
      authorizeGate user reqs data schema =
        GateResult.Denied ⟨"Insufficient permissions",
          SecurityErrorCode.PERMISSION_DENIED,
          some (ErrorDetails.permissionDetails reqs user.id)⟩)
    ∧ (∀ (user : User) (reqs : List Permission) (v : Value) (sch : Schema)
        (e : SecurityError),
      (reqs = [] ∨ hasAnyPermission user reqs = true) → truthy v = true →
      validateAndSanitize v sch = Except.error e →
      authorizeGate user reqs (some v) (some sch) = GateResult.Denied e)
    ∧ (∀ (user : User) (reqs : List Permission) (v : Value) (sch : Schema)
        (w : Value),
      (reqs = [] ∨ hasAnyPermission user reqs = true) → truthy v = true →
      validateAndSanitize v sch = Except.ok w →
      authorizeGate user reqs (some v) (some sch) =
        GateResult.Authorized (some w))
    ∧ (∀ (user : User) (reqs : List Permission) (data : Option Value)
        (schema : Option Schema),
      (reqs = [] ∨ hasAnyPermission user reqs = true) →
      (data = none ∨ schema = none) →
      authorizeGate user reqs data schema = GateResult.Authorized none)
    ∧ (∀ (user : User) (reqs : List Permission) (v : Value) (sch : Schema),
      (reqs = [] ∨ hasAnyPermission user reqs = true) → truthy v = false →
      authorizeGate user reqs (some v) (some sch) =
        GateResult.Authorized none) := by
  refine ⟨?_, ?_, ?_, ?_, ?_, ?_⟩
  · intro user data schema e h
    unfold authorizeGate at h
    simp only [List.length_nil, beq_self_eq_true, Bool.true_or,
      Bool.not_true, Bool.false_eq_true, reduceIte] at h
    rcases data with _ | d <;> rcases schema with _ | s <;> simp at h
    cases hd : truthy d with
    | false => rw [hd] at h; simp at h
    | true =>
      rw [hd] at h
      simp only [reduceIte] at h
      cases hv : validateAndSanitize d s with
      | ok w => rw [hv] at h; simp at h
      | error e2 =>
        rw [hv] at h
        simp at h
        subst h
        rw [validateAndSanitize_error_code d s _ hv]
        intro hcontra
        cases hcontra
  · intro user reqs data schema hne hfail
    unfold authorizeGate
    have hlen : (reqs.length == 0) = false := by
      cases reqs with
      | nil => exact absurd rfl hne
      | cons a t => rfl
    rw [hlen, hfail]
    rfl
  · intro user reqs v sch e hpass htruthy hv
    unfold authorizeGate
    rw [gate_permission_pass user reqs hpass]
    simp [htruthy, hv]
  · intro user reqs v sch w hpass htruthy hv
    unfold authorizeGate
    rw [gate_permission_pass user reqs hpass]
    simp [htruthy, hv]
  · intro user reqs data schema hpass hnone
    unfold authorizeGate
    rw [gate_permission_pass user reqs hpass]
    rcases hnone with hnone | hnone
    · subst hnone
      rcases schema with _ | s <;> rfl
    · subst hnone
      rcases data with _ | d <;> rfl
  · intro user reqs v sch hpass hfalsy
    unfold authorizeGate
    rw [gate_permission_pass user reqs hpass]
    simp [hfalsy]

/-- C4 counterexample: the claim says that whenever the permission check
passes and data with a schema were supplied, a `validateAndSanitize` failure
ends Denied with the pipeline's error; but for the falsy datum 0 with an
all-rejecting schema the pipeline would fail and the gate nevertheless ends
Authorized with no validated data (the `data && validationSchema` guard skips
the pipeline on falsy data). -/
theorem C4_counterexample :
    validateAndSanitize (Value.vNum 0) rejectAllSchema =
      Except.error ⟨"Input validation failed",
        SecurityErrorCode.INVALID_INPUT,
        some (ErrorDetails.validationDetails [⟨[], "rejected"⟩]
          (Value.vNum 0))⟩
    ∧ authorizeGate activeAdminUser [] (some (Value.vNum 0))
        (some rejectAllSchema) = GateResult.Authorized none :=
  ⟨rfl, rfl⟩

/-- Witness for C4: a user holding only an own-scope grant is denied on a
project-scope requirement with the PERMISSION_DENIED error, and the supplied
data and schema are not consulted. -/
theorem C4_authorization_gate_witness :
    ([⟨"docs", PermissionAction.update, some PermissionScope.project⟩]
      ≠ ([] : List Permission))
    ∧ hasAnyPermission docsOwnUser
        [⟨"docs", PermissionAction.update, some PermissionScope.project⟩]
        = false
    ∧ authorizeGate docsOwnUser
        [⟨"docs", PermissionAction.update, some PermissionScope.project⟩]
        (some docExample) (some idSchema) =
      GateResult.Denied ⟨"Insufficient permissions",
        SecurityErrorCode.PERMISSION_DENIED,
        some (ErrorDetails.permissionDetails
          [⟨"docs", PermissionAction.update, some PermissionScope.project⟩]
          docsOwnUser.id)⟩ :=
  ⟨by decide, by decide,
    C4_authorization_gate.2.1 docsOwnUser
      [⟨"docs", PermissionAction.update, some PermissionScope.project⟩]
      (some docExample) (some idSchema) (by decide) (by decide)⟩

/-- C10: the gate runs the pipeline only on truthy data: for every falsy data
value (the empty string, 0, false, null) supplied together with a schema, the
gate skips validation entirely and, once the permission step passes,
authorizes with no validated data, whatever the schema would have said. -/
theorem C10_gate_skips_falsy_data :
    (∀ (user : User) (reqs : List Permission) (v : Value) (sch : Schema),
      (reqs = [] ∨ hasAnyPermission user reqs = true) → truthy v = false →
      authorizeGate user reqs (some v) (some sch) =
        GateResult.Authorized none)
    ∧ truthy (Value.vStr HtmlStr.nil) = false
    ∧ truthy (Value.vNum 0) = false
    ∧ truthy (Value.vBool false) = false
    ∧ truthy Value.vNull = false := by
  refine ⟨?_, rfl, rfl, rfl, rfl⟩
  intro user reqs v sch hpass hfalsy
  unfold authorizeGate
  rw [gate_permission_pass user reqs hpass]
  simp [hfalsy]

/-- Witness for C10: the empty string together with a schema that rejects
every value still authorizes with no validated data. -/
theorem C10_gate_skips_falsy_data_witness :
    (([] : List Permission) = [] ∨
      hasAnyPermission activeAdminUser [] = true)
    ∧ truthy (Value.vStr HtmlStr.nil) = false
    ∧ rejectAllSchema.parse (Value.vStr HtmlStr.nil) =
        Except.error ⟨[⟨[], "rejected"⟩]⟩
    ∧ authorizeGate activeAdminUser [] (some (Value.vStr HtmlStr.nil))
        (some rejectAllSchema) = GateResult.Authorized none :=
  ⟨Or.inl rfl, rfl, rfl,
    C10_gate_skips_falsy_data.1 activeAdminUser []
      (Value.vStr HtmlStr.nil) rejectAllSchema (Or.inl rfl) rfl⟩

end WorldBuilder
